import Mathlib

/-!
Verification of the buffer-management layer of the `grimoire` storage engine.

The development shallowly embeds the Rust sources:
  * `src/backend/buffer/arc_replacer.rs`  (ArcReplacer, the ARC eviction policy)
  * `src/backend/storage/disk_manager.rs` (DiskManager, offset table and page file)
  * `src/backend/storage/disk_scheduler.rs` (DiskScheduler batch execution)

Rust `HashMap`s are embedded as association lists with first-occurrence
semantics (a `HashMap` keeps keys unique, so first occurrence is the unique
occurrence in well-formed states); `VecDeque`s are embedded as lists whose
head is the front (index 0, the least-recently-used end) and whose last
element is the back.  The page file is embedded as a total byte function
`Nat → Nat`; file-system failures (`IoError`) are therefore not modelled —
the claims under study concern the success paths and in-memory state.
-/

namespace Grimoire

/-- Frame identifiers (`FrameId` in `common/types`). -/
abbrev FrameId := Nat

/-- Page identifiers (`PageId` in `common/types`; `i32` where the Disk
Manager spells the type out). -/
abbrev PageId := Int

/-! ### Association-list embedding of `HashMap` -/

/-- Lookup of the first (in a `HashMap`: the unique) binding of a key. -/
def alookup {α β : Type} [DecidableEq α] : List (α × β) → α → Option β
  | [], _ => none
  | (k, v) :: rest, a => if k = a then some v else alookup rest a

/-- Update the first binding of a key in place (`HashMap::get_mut` followed
by a field assignment); absent keys leave the list unchanged. -/
def aupdate {α β : Type} [DecidableEq α] (g : β → β) : List (α × β) → α → List (α × β)
  | [], _ => []
  | (k, v) :: rest, a => if k = a then (k, g v) :: rest else (k, v) :: aupdate g rest a

/-- Remove the first binding of a key (`HashMap::remove`). -/
def aerase {α β : Type} [DecidableEq α] : List (α × β) → α → List (α × β)
  | [], _ => []
  | (k, v) :: rest, a => if k = a then rest else (k, v) :: aerase rest a

/-- Insert a binding (`HashMap::insert`): replace the first binding of the
key if present, otherwise append the new binding. -/
def ainsert {α β : Type} [DecidableEq α] : List (α × β) → α → β → List (α × β)
  | [], a, b => [(a, b)]
  | (k, v) :: rest, a, b => if k = a then (a, b) :: rest else (k, v) :: ainsert rest a b

/-! ### ArcReplacer data model (`arc_replacer.rs`) -/

/-- Access type (`AccessType` in `arc_replacer.rs`). -/
inductive AccessType
  | Scan
  | Lookup
  | Index
  | Unknown
deriving DecidableEq, Repr

/-- Membership tag of a tracked frame (`ArcStatus` in `arc_replacer.rs`). -/
inductive ArcStatus
  | MRU
  | MFU
  | MRUGhost
  | MFUGhost
deriving DecidableEq, Repr

/-- Metadata for a frame tracked by the replacer (`FrameStatus`). -/
structure FrameStatus where
  page_id : PageId
  frame_id : FrameId
  evictable : Bool
  arc_status : ArcStatus
deriving DecidableEq, Repr

/-- The ARC replacer state (`ArcReplacer`).  The `latch` mutex guards the
whole structure in the source and carries no data, so it is dropped from
the embedding; all operations below are the critical sections it protects. -/
structure ArcReplacer where
  replacer_size : Nat
  mru_list : List FrameId
  mfu_list : List FrameId
  mru_ghost_list : List FrameId
  mfu_ghost_list : List FrameId
  pin_table : List (FrameId × FrameStatus)
deriving DecidableEq, Repr

/-- Errors produced by `ArcReplacer` operations.  The source uses
`anyhow::anyhow!` with the messages `"Frame {} is not evictable"` and
`"Frame {} not found in replacer"`; the embedding keeps them as typed
constructors carrying the frame id. -/
inductive ReplacerError
  | notEvictable (f : FrameId)
  | notFound (f : FrameId)
deriving DecidableEq, Repr

/-- `ArcReplacer::new`. -/
def ArcReplacer.new (num_frames : Nat) : ArcReplacer :=
  { replacer_size := num_frames
    mru_list := []
    mfu_list := []
    mru_ghost_list := []
    mfu_ghost_list := []
    pin_table := [] }

/-- The scan loop inside `ArcReplacer::evict`: walk a list from index 0
(the least-recently-used end), skip entries that are untracked or not
evictable, and on the first evictable tracked entry return it together
with the list with that entry removed (`self.*_list.remove(idx)`). -/
def scanEvict (table : List (FrameId × FrameStatus)) : List FrameId → Option (FrameId × List FrameId)
  | [] => none
  | f :: rest =>
    match alookup table f with
    | some st =>
      if st.evictable then some (f, rest)
      else
        match scanEvict table rest with
        | some (v, rest') => some (v, f :: rest')
        | none => none
    | none =>
      match scanEvict table rest with
      | some (v, rest') => some (v, f :: rest')
      | none => none

/-- `ArcReplacer::evict`: scan the MRU list first, then the MFU list; the
victim is removed from its resident list, pushed onto the back of the
corresponding ghost list, and its status tag rewritten to the ghost tag. -/
def ArcReplacer.evict (s : ArcReplacer) : Option FrameId × ArcReplacer :=
  match scanEvict s.pin_table s.mru_list with
  | some (f, mru') =>
    (some f,
      { s with
        mru_list := mru'
        mru_ghost_list := s.mru_ghost_list ++ [f]
        pin_table := aupdate (fun st => { st with arc_status := ArcStatus.MRUGhost }) s.pin_table f })
  | none =>
    match scanEvict s.pin_table s.mfu_list with
    | some (f, mfu') =>
      (some f,
        { s with
          mfu_list := mfu'
          mfu_ghost_list := s.mfu_ghost_list ++ [f]
          pin_table := aupdate (fun st => { st with arc_status := ArcStatus.MFUGhost }) s.pin_table f })
    | none => (none, s)

/-- `ArcReplacer::record_access`: the body in the source is empty (a
documented TODO), so the operation leaves the state unchanged. -/
def ArcReplacer.record_access (s : ArcReplacer) (_frame_id : FrameId) (_page_id : PageId)
    (_access_type : AccessType) : ArcReplacer :=
  s

/-- `ArcReplacer::set_keep`: clear the evictable bit of a tracked frame;
an untracked frame is ignored; always returns `Ok(())`. -/
def ArcReplacer.set_keep (s : ArcReplacer) (frame_id : FrameId) :
    Except ReplacerError Unit × ArcReplacer :=
  (Except.ok (),
    { s with pin_table := aupdate (fun st => { st with evictable := false }) s.pin_table frame_id })

/-- `ArcReplacer::set_evicted`: set the evictable bit of a tracked frame;
an untracked frame is ignored; always returns `Ok(())`. -/
def ArcReplacer.set_evicted (s : ArcReplacer) (frame_id : FrameId) :
    Except ReplacerError Unit × ArcReplacer :=
  (Except.ok (),
    { s with pin_table := aupdate (fun st => { st with evictable := true }) s.pin_table frame_id })

/-- `ArcReplacer::remove`: error on an untracked frame; error on a tracked
frame whose evictable bit is clear; otherwise erase the frame's first
occurrence from the list named by its status tag and drop its table entry. -/
def ArcReplacer.remove (s : ArcReplacer) (frame_id : FrameId) :
    Except ReplacerError Unit × ArcReplacer :=
  match alookup s.pin_table frame_id with
  | some st =>
    if !st.evictable then (Except.error (ReplacerError.notEvictable frame_id), s)
    else
      let s' :=
        match st.arc_status with
        | ArcStatus.MRU => { s with mru_list := s.mru_list.erase frame_id }
        | ArcStatus.MFU => { s with mfu_list := s.mfu_list.erase frame_id }
        | ArcStatus.MRUGhost => { s with mru_ghost_list := s.mru_ghost_list.erase frame_id }
        | ArcStatus.MFUGhost => { s with mfu_ghost_list := s.mfu_ghost_list.erase frame_id }
      (Except.ok (), { s' with pin_table := aerase s'.pin_table frame_id })
  | none => (Except.error (ReplacerError.notFound frame_id), s)

/-- `ArcReplacer::size`: the number of tracked frames whose evictable bit
is set (a filter over the whole `pin_table`, regardless of status tag). -/
def ArcReplacer.size (s : ArcReplacer) : Nat :=
  (s.pin_table.filter (fun kv => kv.2.evictable)).length

/-- `ArcReplacer::delete_ghost`: pop the front (least-recently-used end) of
the MRU ghost list if it exceeds `replacer_size`, otherwise of the MFU
ghost list if that one exceeds `replacer_size`; at most one entry of one
list is dropped per call. -/
def ArcReplacer.delete_ghost (s : ArcReplacer) : ArcReplacer :=
  if s.mru_ghost_list.length > s.replacer_size then
    { s with mru_ghost_list := s.mru_ghost_list.tail }
  else if s.mfu_ghost_list.length > s.replacer_size then
    { s with mfu_ghost_list := s.mfu_ghost_list.tail }
  else s

/-! ### Derived notions used by the claims -/

/-- All four membership lists of the replacer, concatenated. -/
def allFrames (s : ArcReplacer) : List FrameId :=
  s.mru_list ++ s.mfu_list ++ s.mru_ghost_list ++ s.mfu_ghost_list

/-- The list named by a status tag. -/
def listFor (s : ArcReplacer) : ArcStatus → List FrameId
  | ArcStatus.MRU => s.mru_list
  | ArcStatus.MFU => s.mfu_list
  | ArcStatus.MRUGhost => s.mru_ghost_list
  | ArcStatus.MFUGhost => s.mfu_ghost_list

/-- Number of entries of a frame list whose tracked evictable bit is set. -/
def evictableIn (s : ArcReplacer) (l : List FrameId) : Nat :=
  l.countP (fun f => ((alookup s.pin_table f).map (fun st => st.evictable)).getD false)

/-- Count of evictable frames over the resident (MRU and MFU) lists.
Modelled from the spec sentence for `size()`: "count of frames across all
resident lists with evictable = true"; used to compare the spec's reading
of `size()` with the source's. -/
def residentEvictable (s : ArcReplacer) : Nat :=
  evictableIn s (s.mru_list ++ s.mfu_list)

/-- Count of evictable frames over the two ghost lists. -/
def ghostEvictable (s : ArcReplacer) : Nat :=
  evictableIn s (s.mru_ghost_list ++ s.mfu_ghost_list)

/-- Both ghost lists respect the configured capacity. -/
def ghostsBounded (s : ArcReplacer) : Prop :=
  s.mru_ghost_list.length ≤ s.replacer_size ∧ s.mfu_ghost_list.length ≤ s.replacer_size

instance (s : ArcReplacer) : Decidable (ghostsBounded s) := by
  unfold ghostsBounded; infer_instance

/-! ### DiskManager data model (`disk_manager.rs`) -/

/-- `GRIMOIRE_PAGE_SIZE` in `disk_manager.rs`. -/
def GRIMOIRE_PAGE_SIZE : Nat := 4096

/-- `DiskError` as declared in `disk_manager.rs`; `IoError` carries a
`std::io::Error` in the source, which the embedding does not inspect. -/
inductive DiskError
  | IoError
  | PageNotFound (id : PageId)
deriving DecidableEq, Repr

/-- Statistics counters (`DiskStats`). -/
structure DiskStats where
  num_writes : Nat
  num_reads : Nat
  num_deletes : Nat
  num_flushes : Nat
deriving DecidableEq, Repr

/-- The Disk Manager state (`DiskManager`).  The backing db file is
embedded as a total byte function on offsets; `set_len` growth is a no-op
on such a file, so `page_capacity` is tracked but growth only updates the
counter.  The paths, semaphore and log file do not affect the claims under
study and are dropped. -/
structure DiskManager where
  pages : List (PageId × Nat)
  free_slots : List Nat
  page_capacity : Nat
  stats : DiskStats
  file : Nat → Nat

/-- Overwrite `d.length` bytes of a file at `off` (`seek` + `write_all`). -/
def writeBytes (file : Nat → Nat) (off : Nat) (d : List Nat) : Nat → Nat :=
  fun a => if off ≤ a ∧ a - off < d.length then d.getD (a - off) 0 else file a

/-- Read `n` bytes of a file starting at `off` (`seek` + `read_exact`). -/
def readBytes (file : Nat → Nat) (off n : Nat) : List Nat :=
  (List.range n).map (fun i => file (off + i))

/-- Fresh state produced by `DiskManager::new` (128 initial capacity,
empty offset table, empty free-slot pool, zeroed statistics and file). -/
def DiskManager.init : DiskManager :=
  { pages := []
    free_slots := []
    page_capacity := 128
    stats := { num_writes := 0, num_reads := 0, num_deletes := 0, num_flushes := 0 }
    file := fun _ => 0 }

/-- `DiskManager::allocate_page`: pop a free slot from the back of the
`free_slots` vector if one exists; otherwise double the capacity when the
table is full and hand out the fresh offset `pages.len() * PAGE_SIZE`.
The chosen offset is recorded for `page_id` and returned. -/
def DiskManager.allocate_page (dm : DiskManager) (page_id : PageId) : Nat × DiskManager :=
  match dm.free_slots.getLast? with
  | some off =>
    (off, { dm with
            free_slots := dm.free_slots.dropLast
            pages := ainsert dm.pages page_id off })
  | none =>
    let capacity := if dm.pages.length ≥ dm.page_capacity then dm.page_capacity * 2 else dm.page_capacity
    let off := dm.pages.length * GRIMOIRE_PAGE_SIZE
    (off, { dm with
            page_capacity := capacity
            pages := ainsert dm.pages page_id off })

/-- `DiskManager::write_page`: `none` models the `panic!` on a buffer
whose size differs from `GRIMOIRE_PAGE_SIZE`; otherwise the recorded
offset is looked up (or allocated), the bytes are written there, and the
write counter is bumped. -/
def DiskManager.write_page (dm : DiskManager) (page_id : PageId) (page_data : List Nat) :
    Option DiskManager :=
  if page_data.length ≠ GRIMOIRE_PAGE_SIZE then none
  else
    let od : Nat × DiskManager :=
      match alookup dm.pages page_id with
      | some o => (o, dm)
      | none => dm.allocate_page page_id
    some { od.2 with
           file := writeBytes od.2.file od.1 page_data
           stats := { od.2.stats with num_writes := od.2.stats.num_writes + 1 } }

/-- `DiskManager::read_page`: `none` models the `panic!` on a wrong-sized
buffer; a missing offset fails with `PageNotFound`; otherwise the page's
bytes are returned (the filled buffer) and the read counter is bumped. -/
def DiskManager.read_page (dm : DiskManager) (page_id : PageId) (page_data : List Nat) :
    Option (Except DiskError (List Nat × DiskManager)) :=
  if page_data.length ≠ GRIMOIRE_PAGE_SIZE then none
  else
    match alookup dm.pages page_id with
    | none => some (Except.error (DiskError.PageNotFound page_id))
    | some off =>
      some (Except.ok
        (readBytes dm.file off GRIMOIRE_PAGE_SIZE,
         { dm with stats := { dm.stats with num_reads := dm.stats.num_reads + 1 } }))

/-- `DiskManager::delete_page`: remove the offset binding of the page
(failing with `PageNotFound` if absent), push the freed offset onto the
back of the free-slot pool, and bump the delete counter. -/
def DiskManager.delete_page (dm : DiskManager) (page_id : PageId) :
    Except DiskError Unit × DiskManager :=
  match alookup dm.pages page_id with
  | some off =>
    (Except.ok (),
      { dm with
        pages := aerase dm.pages page_id
        free_slots := dm.free_slots ++ [off]
        stats := { dm.stats with num_deletes := dm.stats.num_deletes + 1 } })
  | none => (Except.error (DiskError.PageNotFound page_id), dm)

/-! ### Traces of DiskManager mutations (for the offset-table invariant) -/

/-- A mutating Disk Manager call appearing in a trace. -/
inductive DMOp
  | write (page_id : PageId) (data : List Nat)
  | delete (page_id : PageId)

/-- Apply one call to the state; a panicking `write_page` (wrong buffer
size) aborts before mutating, and a failing `delete_page` returns the
state it was given, so both leave the state unchanged. -/
def applyOp (dm : DiskManager) : DMOp → DiskManager
  | DMOp.write p d => (dm.write_page p d).getD dm
  | DMOp.delete p => (dm.delete_page p).2

/-- Run a trace of mutating calls from a given state. -/
def runOps (dm : DiskManager) (ops : List DMOp) : DiskManager :=
  ops.foldl applyOp dm

/-- Byte offsets currently recorded for live (non-deleted) pages. -/
def liveOffsets (dm : DiskManager) : List Nat :=
  dm.pages.map (fun kv => kv.2)

/-- Live offsets together with the free-slot pool. -/
def allOffsets (dm : DiskManager) : List Nat :=
  liveOffsets dm ++ dm.free_slots

/-! ### DiskScheduler batch execution (`disk_scheduler.rs`) -/

/-- A queued request (`DiskRequest`); the completion channel is dropped
from the embedding — a request's visible effect is its action on the
Disk Manager state. -/
structure DiskRequest where
  is_write : Bool
  data : List Nat
  page_id : PageId

/-- Effect of one request on the Disk Manager state (the body of the task
`DiskScheduler::schedule` spawns per request). -/
def applyReq (dm : DiskManager) (r : DiskRequest) : DiskManager :=
  if r.is_write then (dm.write_page r.page_id r.data).getD dm
  else
    match dm.read_page r.page_id r.data with
    | some (Except.ok (_, dm')) => dm'
    | _ => dm

/-- Run a batch of requests in a given order. -/
def runBatch (dm : DiskManager) (reqs : List DiskRequest) : DiskManager :=
  reqs.foldl applyReq dm

/-- Which final states a call to `DiskScheduler::schedule` can produce
from a drained batch: the source spawns one independent task per request,
constrained only by a counting semaphore, so every serialization of the
batch (every permutation executed in sequence) is a possible execution;
the concurrent semantics admits at least these outcomes. -/
def scheduleOutcome (dm : DiskManager) (batch : List DiskRequest) (dmf : DiskManager) : Prop :=
  ∃ order : List DiskRequest, List.Perm order batch ∧ runBatch dm order = dmf

/-! ### Association-list lemmas -/

lemma alookup_eq_none {α β : Type} [DecidableEq α] {l : List (α × β)} {a : α} :
    alookup l a = none ↔ a ∉ l.map Prod.fst := by
  induction l with
  | nil => simp [alookup]
  | cons kv rest ih =>
    obtain ⟨k, v⟩ := kv
    by_cases h : k = a
    · subst h; simp [alookup]
    · rw [alookup, if_neg h, ih]
      simp only [List.map_cons, List.mem_cons, not_or]
      exact ⟨fun hn => ⟨fun hc => h hc.symm, hn⟩, fun hn => hn.2⟩

lemma aupdate_of_none {α β : Type} [DecidableEq α] (g : β → β) {l : List (α × β)} {a : α}
    (h : alookup l a = none) : aupdate g l a = l := by
  induction l with
  | nil => simp [aupdate]
  | cons kv rest ih =>
    obtain ⟨k, v⟩ := kv
    by_cases hk : k = a
    · simp [alookup, hk] at h
    · simp [alookup, hk] at h
      simp [aupdate, hk, ih h]

lemma alookup_aupdate_self {α β : Type} [DecidableEq α] (g : β → β) (l : List (α × β)) (a : α) :
    alookup (aupdate g l a) a = (alookup l a).map g := by
  induction l with
  | nil => simp [alookup, aupdate]
  | cons kv rest ih =>
    obtain ⟨k, v⟩ := kv
    by_cases hk : k = a <;> simp [alookup, aupdate, hk, ih]

lemma alookup_ainsert_self {α β : Type} [DecidableEq α] (l : List (α × β)) (a : α) (b : β) :
    alookup (ainsert l a b) a = some b := by
  induction l with
  | nil => simp [alookup, ainsert]
  | cons kv rest ih =>
    obtain ⟨k, v⟩ := kv
    by_cases hk : k = a <;> simp [alookup, ainsert, hk, ih]

lemma ainsert_of_none {α β : Type} [DecidableEq α] {l : List (α × β)} {a : α} (b : β)
    (h : alookup l a = none) : ainsert l a b = l ++ [(a, b)] := by
  induction l with
  | nil => simp [ainsert]
  | cons kv rest ih =>
    obtain ⟨k, v⟩ := kv
    by_cases hk : k = a
    · simp [alookup, hk] at h
    · simp [alookup, hk] at h
      simp [ainsert, hk, ih h]

lemma alookup_decomp {α β : Type} [DecidableEq α] {l : List (α × β)} {a : α} {v : β}
    (h : alookup l a = some v) :
    ∃ l₁ l₂, l = l₁ ++ (a, v) :: l₂ ∧ aerase l a = l₁ ++ l₂ ∧ a ∉ l₁.map Prod.fst := by
  induction l with
  | nil => simp [alookup] at h
  | cons kv rest ih =>
    obtain ⟨k, w⟩ := kv
    by_cases hk : k = a
    · subst hk
      simp [alookup] at h
      subst h
      exact ⟨[], rest, by simp [aerase]⟩
    · simp [alookup, hk] at h
      obtain ⟨l₁, l₂, hl, he, hm⟩ := ih h
      refine ⟨(k, w) :: l₁, l₂, by simp [hl], by simp [aerase, hk, he], ?_⟩
      simpa [eq_comm, Ne.symm hk] using hm

/-! ### Lemmas about the eviction scan -/

lemma scanEvict_eq_some {table : List (FrameId × FrameStatus)} :
    ∀ {l : List FrameId} {f : FrameId} {l' : List FrameId},
    scanEvict table l = some (f, l') →
    ∃ st l₁ l₂, alookup table f = some st ∧ st.evictable = true ∧
      l = l₁ ++ f :: l₂ ∧ l' = l₁ ++ l₂ := by
  intro l
  induction l with
  | nil => intro f l' h; simp [scanEvict] at h
  | cons x rest ih =>
    intro f l' h
    simp only [scanEvict] at h
    split at h
    next st hst =>
      split at h
      next hev =>
        simp only [Option.some.injEq, Prod.mk.injEq] at h
        obtain ⟨hf, hl'⟩ := h
        subst hf
        subst hl'
        exact ⟨st, [], rest, hst, hev, rfl, rfl⟩
      next hev =>
        split at h
        next v rest' hsc =>
          simp only [Option.some.injEq, Prod.mk.injEq] at h
          obtain ⟨hf, hl'⟩ := h
          subst hf
          obtain ⟨st', l₁, l₂, h1, h2, h3, h4⟩ := ih hsc
          exact ⟨st', x :: l₁, l₂, h1, h2, by rw [h3]; rfl, by rw [← hl', h4]; simp⟩
        next hsc => simp at h
    next hst =>
      split at h
      next v rest' hsc =>
        simp only [Option.some.injEq, Prod.mk.injEq] at h
        obtain ⟨hf, hl'⟩ := h
        subst hf
        obtain ⟨st', l₁, l₂, h1, h2, h3, h4⟩ := ih hsc
        exact ⟨st', x :: l₁, l₂, h1, h2, by rw [h3]; rfl, by rw [← hl', h4]; simp⟩
      next hsc => simp at h

/-! ### Claim C1 -/

/-- Claim C1: for every replacer state, if `evict()` returns `Some(f)`
then the tracked status of frame `f` had `evictable = true` at the moment
it was selected; `evict()` never returns a frame whose evictable flag is
false. -/
theorem claim_C1 (s : ArcReplacer) (f : FrameId) (h : (s.evict).1 = some f) :
    ∃ st, alookup s.pin_table f = some st ∧ st.evictable = true := by
  unfold ArcReplacer.evict at h
  split at h
  next v mru' h1 =>
    simp at h
    subst h
    obtain ⟨st, _, _, hst, hev, _, _⟩ := scanEvict_eq_some h1
    exact ⟨st, hst, hev⟩
  next h1 =>
    split at h
    next v mfu' h2 =>
      simp at h
      subst h
      obtain ⟨st, _, _, hst, hev, _, _⟩ := scanEvict_eq_some h2
      exact ⟨st, hst, hev⟩
    next h2 => simp at h

/-- Concrete replacer state with one evictable resident frame. -/
def sC1 : ArcReplacer :=
  { replacer_size := 2
    mru_list := [0]
    mfu_list := []
    mru_ghost_list := []
    mfu_ghost_list := []
    pin_table := [(0, { page_id := 3, frame_id := 0, evictable := true, arc_status := ArcStatus.MRU })] }

/-- Witness for claim C1 at the concrete state `sC1`. -/
theorem claim_C1_witness :
    ∃ st, alookup sC1.pin_table 0 = some st ∧ st.evictable = true :=
  claim_C1 sC1 0 (by decide)

/-! ### Claim C10 -/

/-- Claim C10: for every frame id not present in the tracking table,
`set_keep` and `set_evicted` both return `Ok(())` and leave the entire
replacer state unchanged. -/
theorem claim_C10 (s : ArcReplacer) (f : FrameId) (h : alookup s.pin_table f = none) :
    s.set_keep f = (Except.ok (), s) ∧ s.set_evicted f = (Except.ok (), s) := by
  unfold ArcReplacer.set_keep ArcReplacer.set_evicted
  rw [aupdate_of_none _ h, aupdate_of_none _ h]
  exact ⟨rfl, rfl⟩

/-- Concrete replacer state tracking only frame 0. -/
def sC10 : ArcReplacer :=
  { replacer_size := 2
    mru_list := [0]
    mfu_list := []
    mru_ghost_list := []
    mfu_ghost_list := []
    pin_table := [(0, { page_id := 3, frame_id := 0, evictable := false, arc_status := ArcStatus.MRU })] }

/-- Witness for claim C10: frame 5 is untracked in `sC10`. -/
theorem claim_C10_witness :
    sC10.set_keep 5 = (Except.ok (), sC10) ∧ sC10.set_evicted 5 = (Except.ok (), sC10) :=
  claim_C10 sC10 5 (by decide)

/-! ### Claim C2 -/

/-- Claim C2: in every replacer state in which each frame id occurs in at
most one of the four lists, a successful `evict()` leaves the victim
absent from both resident lists, present in exactly one ghost list, and
with its status tag set to the matching ghost tag. -/
theorem claim_C2 (s : ArcReplacer) (f : FrameId) (hnd : (allFrames s).Nodup)
    (h : (s.evict).1 = some f) :
    f ∉ (s.evict).2.mru_list ∧ f ∉ (s.evict).2.mfu_list ∧
    ((f ∈ (s.evict).2.mru_ghost_list ∧ f ∉ (s.evict).2.mfu_ghost_list ∧
        (alookup (s.evict).2.pin_table f).map (fun st => st.arc_status) = some ArcStatus.MRUGhost) ∨
     (f ∈ (s.evict).2.mfu_ghost_list ∧ f ∉ (s.evict).2.mru_ghost_list ∧
        (alookup (s.evict).2.pin_table f).map (fun st => st.arc_status) = some ArcStatus.MFUGhost)) := by
  have hcount := List.nodup_iff_count_le_one.mp hnd f
  simp only [allFrames, List.count_append] at hcount
  rcases h1 : scanEvict s.pin_table s.mru_list with _ | ⟨v, mru'⟩
  · rcases h2 : scanEvict s.pin_table s.mfu_list with _ | ⟨w, mfu'⟩
    · simp only [ArcReplacer.evict, h1, h2] at h
      exact absurd h (by simp)
    · simp only [ArcReplacer.evict, h1, h2] at h ⊢
      simp only [Option.some.injEq] at h
      subst w
      obtain ⟨st, l₁, l₂, hst, hev, hl, hl'⟩ := scanEvict_eq_some h2
      rw [hl] at hcount
      simp only [List.count_append, List.count_cons_self] at hcount
      have hmru0 : s.mru_list.count f = 0 := by omega
      have h10 : l₁.count f = 0 := by omega
      have h20 : l₂.count f = 0 := by omega
      have hg10 : s.mru_ghost_list.count f = 0 := by omega
      refine ⟨List.count_eq_zero.mp hmru0, ?_, Or.inr ⟨?_, ?_, ?_⟩⟩
      · rw [hl']
        have : (l₁ ++ l₂).count f = 0 := by rw [List.count_append]; omega
        exact List.count_eq_zero.mp this
      · simp
      · exact List.count_eq_zero.mp hg10
      · rw [alookup_aupdate_self, hst]; rfl
  · simp only [ArcReplacer.evict, h1] at h ⊢
    simp only [Option.some.injEq] at h
    subst v
    obtain ⟨st, l₁, l₂, hst, hev, hl, hl'⟩ := scanEvict_eq_some h1
    rw [hl] at hcount
    simp only [List.count_append, List.count_cons_self] at hcount
    have h10 : l₁.count f = 0 := by omega
    have h20 : l₂.count f = 0 := by omega
    have hmfu0 : s.mfu_list.count f = 0 := by omega
    have hg20 : s.mfu_ghost_list.count f = 0 := by omega
    refine ⟨?_, List.count_eq_zero.mp hmfu0, Or.inl ⟨?_, ?_, ?_⟩⟩
    · rw [hl']
      have : (l₁ ++ l₂).count f = 0 := by rw [List.count_append]; omega
      exact List.count_eq_zero.mp this
    · simp
    · exact List.count_eq_zero.mp hg20
    · rw [alookup_aupdate_self, hst]; rfl

/-- Concrete replacer state for the C2 witness. -/
def sC2 : ArcReplacer :=
  { replacer_size := 2
    mru_list := [1]
    mfu_list := [2]
    mru_ghost_list := []
    mfu_ghost_list := []
    pin_table :=
      [(1, { page_id := 8, frame_id := 1, evictable := true, arc_status := ArcStatus.MRU }),
       (2, { page_id := 9, frame_id := 2, evictable := true, arc_status := ArcStatus.MFU })] }

/-- Witness for claim C2 at the concrete state `sC2` (frame 1 is evicted
from the recency list). -/
theorem claim_C2_witness :
    1 ∉ (sC2.evict).2.mru_list ∧ 1 ∉ (sC2.evict).2.mfu_list ∧
    ((1 ∈ (sC2.evict).2.mru_ghost_list ∧ 1 ∉ (sC2.evict).2.mfu_ghost_list ∧
        (alookup (sC2.evict).2.pin_table 1).map (fun st => st.arc_status) = some ArcStatus.MRUGhost) ∨
     (1 ∈ (sC2.evict).2.mfu_ghost_list ∧ 1 ∉ (sC2.evict).2.mru_ghost_list ∧
        (alookup (sC2.evict).2.pin_table 1).map (fun st => st.arc_status) = some ArcStatus.MFUGhost)) :=
  claim_C2 sC2 1 (by decide) (by decide)

/-! ### Claim C6 -/

/-- Concrete replacer state with page 7 resident in the recency list. -/
def sC6 : ArcReplacer :=
  { replacer_size := 2
    mru_list := [0]
    mfu_list := []
    mru_ghost_list := []
    mfu_ghost_list := []
    pin_table := [(0, { page_id := 7, frame_id := 0, evictable := true, arc_status := ArcStatus.MRU })] }

/-- Claim C6 is contradicted by the code: the body of
`ArcReplacer::record_access` is empty (its own doc comment promises the
four ARC cases but marks them TODO), so an access to the resident page 7
leaves the state unchanged — in particular the page stays in the recency
list and is never moved to the most-recently-used end of the frequency
list. -/
theorem claim_C6_bug :
    sC6.record_access 0 7 AccessType.Lookup = sC6 ∧
    (sC6.record_access 0 7 AccessType.Lookup).mfu_list = [] ∧
    0 ∈ (sC6.record_access 0 7 AccessType.Lookup).mru_list := by
  decide

/-! ### Claim C8 -/

/-- Concrete replacer state refuting claim C8: capacity 0, one evictable
resident frame, both ghost lists within bound. -/
def sC8 : ArcReplacer :=
  { replacer_size := 0
    mru_list := [0]
    mfu_list := []
    mru_ghost_list := []
    mfu_ghost_list := []
    pin_table := [(0, { page_id := 0, frame_id := 0, evictable := true, arc_status := ArcStatus.MRU })] }

/-- Counterexample to claim C8: `evict()` appends the victim to a ghost
list without ever invoking `delete_ghost`, so an eviction step does not
preserve the bound of `replacer_size` on the ghost lists. -/
theorem claim_C8_cex :
    ghostsBounded sC8 ∧ (sC8.evict).1 = some 0 ∧ ¬ ghostsBounded (sC8.evict).2 := by
  decide

/-- Claim C8 amended: `delete_ghost` itself, when called on a state where
at most one ghost list exceeds the capacity and by at most one entry,
drops that list's least-recently-used entry and restores the bound; but
no replacer operation invokes it, and `evict()` can push a ghost list past
the bound. -/
theorem claim_C8 (s : ArcReplacer)
    (h : (s.mru_ghost_list.length ≤ s.replacer_size + 1 ∧ s.mfu_ghost_list.length ≤ s.replacer_size) ∨
         (s.mru_ghost_list.length ≤ s.replacer_size ∧ s.mfu_ghost_list.length ≤ s.replacer_size + 1)) :
    ghostsBounded s.delete_ghost := by
  unfold ArcReplacer.delete_ghost ghostsBounded
  rcases h with ⟨h1, h2⟩ | ⟨h1, h2⟩
  · by_cases hg : s.mru_ghost_list.length > s.replacer_size
    · rw [if_pos hg]
      refine ⟨?_, ?_⟩ <;> simp [List.length_tail] <;> omega
    · rw [if_neg hg, if_neg (by omega)]
      exact ⟨by omega, h2⟩
  · by_cases hg : s.mru_ghost_list.length > s.replacer_size
    · omega
    · rw [if_neg hg]
      by_cases hg2 : s.mfu_ghost_list.length > s.replacer_size
      · rw [if_pos hg2]
        refine ⟨?_, ?_⟩ <;> simp [List.length_tail] <;> omega
      · rw [if_neg hg2]
        exact ⟨h1, by omega⟩

/-- Concrete replacer state for the C8 witness: the recency-ghost list
exceeds the capacity 1 by one entry. -/
def sC8w : ArcReplacer :=
  { replacer_size := 1
    mru_list := []
    mfu_list := []
    mru_ghost_list := [4, 5]
    mfu_ghost_list := [6]
    pin_table := [] }

/-- Witness for the amended claim C8 at the concrete state `sC8w`. -/
theorem claim_C8_witness : ghostsBounded sC8w.delete_ghost :=
  claim_C8 sC8w (by decide)

/-! ### Claim C5, counterexample part -/

/-- Concrete replacer state refuting claim C5: frame 0 was evicted to the
recency-ghost list and its evictable bit is still set. -/
def sC5 : ArcReplacer :=
  { replacer_size := 2
    mru_list := []
    mfu_list := []
    mru_ghost_list := [0]
    mfu_ghost_list := []
    pin_table := [(0, { page_id := 1, frame_id := 0, evictable := true, arc_status := ArcStatus.MRUGhost })] }

/-- Counterexample to claim C5: `size()` counts every tracked frame with
`evictable = true`, so a ghost-tracked frame contributes, while the count
of evictable frames over the resident lists alone is 0. -/
theorem claim_C5_cex :
    sC5.size = 1 ∧ residentEvictable sC5 = 0 ∧ sC5.size ≠ residentEvictable sC5 := by
  decide

/-! ### Claim C7 -/

lemma aerase_of_none {α β : Type} [DecidableEq α] {l : List (α × β)} {a : α}
    (h : alookup l a = none) : aerase l a = l := by
  induction l with
  | nil => simp [aerase]
  | cons kv rest ih =>
    obtain ⟨k, v⟩ := kv
    by_cases hk : k = a
    · simp [alookup, hk] at h
    · simp [alookup, hk] at h
      simp [aerase, hk, ih h]

lemma alookup_aerase_self {α β : Type} [DecidableEq α] {l : List (α × β)} {a : α}
    (hnd : (l.map Prod.fst).Nodup) : alookup (aerase l a) a = none := by
  rcases hl : alookup l a with _ | v
  · rw [aerase_of_none hl, hl]
  · obtain ⟨l₁, l₂, hdec, herase, hnot⟩ := alookup_decomp hl
    rw [herase]
    rw [alookup_eq_none]
    have hcount := List.nodup_iff_count_le_one.mp hnd a
    rw [hdec] at hcount
    simp only [List.map_append, List.map_cons, List.count_append, List.count_cons_self] at hcount
    have h1 : (l₁.map Prod.fst).count a = 0 := by omega
    have h2 : (l₂.map Prod.fst).count a = 0 := by omega
    rw [List.map_append, List.mem_append]
    rintro (hm | hm)
    · exact absurd hm (List.count_eq_zero.mp h1)
    · exact absurd hm (List.count_eq_zero.mp h2)

/-- Claim C7: `remove(frame_id)` on a tracked frame whose evictable bit is
false fails with the not-evictable error and leaves the whole state
unchanged; on a tracked frame whose evictable bit is true (and which, per
the membership invariant, sits in the list named by its tag) it succeeds,
deletes the frame from the list holding it, and drops its tracking entry
entirely. -/
theorem claim_C7 (s : ArcReplacer) (f : FrameId) (st : FrameStatus)
    (hst : alookup s.pin_table f = some st)
    (hknd : (s.pin_table.map Prod.fst).Nodup)
    (hnd : (allFrames s).Nodup)
    (hmem : st.evictable = true → f ∈ listFor s st.arc_status) :
    (st.evictable = false → s.remove f = (Except.error (ReplacerError.notEvictable f), s)) ∧
    (st.evictable = true →
      (s.remove f).1 = Except.ok () ∧
      alookup (s.remove f).2.pin_table f = none ∧
      f ∉ allFrames (s.remove f).2) := by
  have hcount := List.nodup_iff_count_le_one.mp hnd f
  simp only [allFrames, List.count_append] at hcount
  obtain ⟨pid, fid, ev, tag⟩ := st
  constructor
  · intro hev
    subst hev
    simp [ArcReplacer.remove, hst]
  · intro hev
    subst hev
    have hmem' := hmem rfl
    cases tag
    case MRU =>
      have hpos : 0 < s.mru_list.count f := List.count_pos_iff.mpr hmem'
      have hmru' : (s.mru_list.erase f).count f = 0 := by
        rw [List.count_erase_self]; omega
      refine ⟨by simp [ArcReplacer.remove, hst], ?_, ?_⟩
      · simp only [ArcReplacer.remove, hst]
        simpa using alookup_aerase_self hknd
      · simp only [ArcReplacer.remove, hst, allFrames]
        simp only [Bool.not_true, Bool.false_eq_true, if_false, List.mem_append, not_or]
        exact ⟨⟨⟨List.count_eq_zero.mp hmru',
          List.count_eq_zero.mp (by omega)⟩,
          List.count_eq_zero.mp (by omega)⟩,
          List.count_eq_zero.mp (by omega)⟩
    case MFU =>
      have hpos : 0 < s.mfu_list.count f := List.count_pos_iff.mpr hmem'
      have hmfu' : (s.mfu_list.erase f).count f = 0 := by
        rw [List.count_erase_self]; omega
      refine ⟨by simp [ArcReplacer.remove, hst], ?_, ?_⟩
      · simp only [ArcReplacer.remove, hst]
        simpa using alookup_aerase_self hknd
      · simp only [ArcReplacer.remove, hst, allFrames]
        simp only [Bool.not_true, Bool.false_eq_true, if_false, List.mem_append, not_or]
        exact ⟨⟨⟨List.count_eq_zero.mp (by omega),
          List.count_eq_zero.mp hmfu'⟩,
          List.count_eq_zero.mp (by omega)⟩,
          List.count_eq_zero.mp (by omega)⟩
    case MRUGhost =>
      have hpos : 0 < s.mru_ghost_list.count f := List.count_pos_iff.mpr hmem'
      have hg1' : (s.mru_ghost_list.erase f).count f = 0 := by
        rw [List.count_erase_self]; omega
      refine ⟨by simp [ArcReplacer.remove, hst], ?_, ?_⟩
      · simp only [ArcReplacer.remove, hst]
        simpa using alookup_aerase_self hknd
      · simp only [ArcReplacer.remove, hst, allFrames]
        simp only [Bool.not_true, Bool.false_eq_true, if_false, List.mem_append, not_or]
        exact ⟨⟨⟨List.count_eq_zero.mp (by omega),
          List.count_eq_zero.mp (by omega)⟩,
          List.count_eq_zero.mp hg1'⟩,
          List.count_eq_zero.mp (by omega)⟩
    case MFUGhost =>
      have hpos : 0 < s.mfu_ghost_list.count f := List.count_pos_iff.mpr hmem'
      have hg2' : (s.mfu_ghost_list.erase f).count f = 0 := by
        rw [List.count_erase_self]; omega
      refine ⟨by simp [ArcReplacer.remove, hst], ?_, ?_⟩
      · simp only [ArcReplacer.remove, hst]
        simpa using alookup_aerase_self hknd
      · simp only [ArcReplacer.remove, hst, allFrames]
        simp only [Bool.not_true, Bool.false_eq_true, if_false, List.mem_append, not_or]
        exact ⟨⟨⟨List.count_eq_zero.mp (by omega),
          List.count_eq_zero.mp (by omega)⟩,
          List.count_eq_zero.mp (by omega)⟩,
          List.count_eq_zero.mp hg2'⟩

/-- Concrete replacer state for the C7 witness. -/
def sC7 : ArcReplacer :=
  { replacer_size := 2
    mru_list := [1]
    mfu_list := []
    mru_ghost_list := []
    mfu_ghost_list := []
    pin_table := [(1, { page_id := 9, frame_id := 1, evictable := true, arc_status := ArcStatus.MRU })] }

/-- Witness for claim C7 at the concrete state `sC7` (frame 1, tracked and
evictable, in the recency list). -/
theorem claim_C7_witness :
    ((({ page_id := 9, frame_id := 1, evictable := true, arc_status := ArcStatus.MRU } : FrameStatus).evictable = false →
        sC7.remove 1 = (Except.error (ReplacerError.notEvictable 1), sC7)) ∧
     (({ page_id := 9, frame_id := 1, evictable := true, arc_status := ArcStatus.MRU } : FrameStatus).evictable = true →
        (sC7.remove 1).1 = Except.ok () ∧
        alookup (sC7.remove 1).2.pin_table 1 = none ∧
        1 ∉ allFrames (sC7.remove 1).2)) :=
  claim_C7 sC7 1 _ (by decide) (by decide) (by decide) (by decide)

/-! ### Claim C5, amended part -/

lemma table_countP_eq_keys (table : List (FrameId × FrameStatus))
    (hnd : (table.map Prod.fst).Nodup) :
    table.countP (fun kv => kv.2.evictable) =
    (table.map Prod.fst).countP
      (fun f => ((alookup table f).map (fun st => st.evictable)).getD false) := by
  induction table with
  | nil => simp
  | cons kv rest ih =>
    obtain ⟨k, v⟩ := kv
    simp only [List.map_cons, List.nodup_cons] at hnd
    obtain ⟨hk, hrest⟩ := hnd
    rw [List.map_cons, List.countP_cons, List.countP_cons, ih hrest]
    have hhead : ((alookup ((k, v) :: rest) k).map (fun st => st.evictable)).getD false
        = v.evictable := by
      simp [alookup]
    have htail : (rest.map Prod.fst).countP
          (fun f => ((alookup rest f).map (fun st => st.evictable)).getD false)
        = (rest.map Prod.fst).countP
          (fun f => ((alookup ((k, v) :: rest) f).map (fun st => st.evictable)).getD false) := by
      apply List.countP_congr
      intro a ha
      have hak : ¬ k = a := fun hc => hk (hc ▸ ha)
      simp [alookup, hak]
    rw [htail, hhead]

/-- Claim C5 amended: `size()` counts every tracked frame with
`evictable = true`, whether its status is resident or ghost.  Under the
invariant that the tracked frames are exactly the members of the four
lists (and each frame occurs once), `size()` equals the evictable count
over the resident lists plus the evictable count over the ghost lists;
ghost-tracked frames whose evictable bit is still set do contribute. -/
theorem claim_C5 (s : ArcReplacer)
    (hk : (s.pin_table.map Prod.fst).Perm (allFrames s))
    (hnd : (allFrames s).Nodup) :
    s.size = residentEvictable s + ghostEvictable s := by
  have hknd : (s.pin_table.map Prod.fst).Nodup := hk.nodup_iff.mpr hnd
  unfold ArcReplacer.size residentEvictable ghostEvictable evictableIn
  rw [← List.countP_eq_length_filter]
  rw [table_countP_eq_keys _ hknd, hk.countP_eq]
  unfold allFrames
  simp only [List.countP_append]
  omega

/-- Concrete replacer state for the C5 witness: one evictable resident
frame and one evictable ghost frame. -/
def sC5w : ArcReplacer :=
  { replacer_size := 2
    mru_list := [1]
    mfu_list := []
    mru_ghost_list := [2]
    mfu_ghost_list := []
    pin_table :=
      [(1, { page_id := 4, frame_id := 1, evictable := true, arc_status := ArcStatus.MRU }),
       (2, { page_id := 5, frame_id := 2, evictable := true, arc_status := ArcStatus.MRUGhost })] }

/-- Witness for the amended claim C5 at the concrete state `sC5w`. -/
theorem claim_C5_witness : sC5w.size = residentEvictable sC5w + ghostEvictable sC5w :=
  claim_C5 sC5w (by decide) (by decide)

/-! ### Claim C3 -/

lemma range_map_getD (l : List Nat) : (List.range l.length).map (fun i => l.getD i 0) = l := by
  apply List.ext_getElem
  · simp
  · intro i h1 h2
    simp [List.getD_eq_getElem, List.getElem?_eq_getElem h2]

/-- Reading back a freshly written byte range returns the written bytes. -/
lemma readBytes_writeBytes (f : Nat → Nat) (off : Nat) (d : List Nat) :
    readBytes (writeBytes f off d) off d.length = d := by
  unfold readBytes writeBytes
  have hcongr : ∀ i ∈ List.range d.length,
      (if off ≤ off + i ∧ off + i - off < d.length then d.getD (off + i - off) 0 else f (off + i))
        = d.getD i 0 := by
    intro i hi
    rw [List.mem_range] at hi
    rw [if_pos ⟨Nat.le_add_right _ _, by omega⟩]
    congr 1
    omega
  rw [List.map_eq_map_iff.mpr hcongr]
  exact range_map_getD d

/-- After `allocate_page`, the returned offset is the one recorded for the
page. -/
lemma alookup_allocate (dm : DiskManager) (p : PageId) :
    alookup (dm.allocate_page p).2.pages p = some (dm.allocate_page p).1 := by
  unfold DiskManager.allocate_page
  rcases h : dm.free_slots.getLast? with _ | off
  · simp [alookup_ainsert_self]
  · simp [alookup_ainsert_self]

/-- Round trip through the Disk Manager: with a correctly sized buffer a
`write_page` is applied (it always succeeds in the model) and an
immediate `read_page` of the same page returns exactly the written
bytes. -/
lemma read_after_write (dm : DiskManager) (p : PageId) (d buf : List Nat)
    (hd : d.length = GRIMOIRE_PAGE_SIZE) (hb : buf.length = GRIMOIRE_PAGE_SIZE) :
    (((dm.write_page p d).getD dm).read_page p buf).map (Except.map Prod.fst)
      = some (Except.ok d) := by
  unfold DiskManager.write_page
  rw [if_neg (by omega)]
  rcases hlp : alookup dm.pages p with _ | o
  · have hread : readBytes (writeBytes (dm.allocate_page p).2.file (dm.allocate_page p).1 d)
        (dm.allocate_page p).1 GRIMOIRE_PAGE_SIZE = d := by
      rw [← hd]
      exact readBytes_writeBytes _ _ _
    simp [DiskManager.read_page, hb, alookup_allocate, hread, Except.map]
  · have hread : readBytes (writeBytes dm.file o d) o GRIMOIRE_PAGE_SIZE = d := by
      rw [← hd]
      exact readBytes_writeBytes _ _ _
    simp [DiskManager.read_page, hb, hlp, hread, Except.map]

/-- A correctly sized `write_page` never hits the panic branch. -/
lemma write_page_isSome (dm : DiskManager) (p : PageId) (d : List Nat)
    (hd : d.length = GRIMOIRE_PAGE_SIZE) : (dm.write_page p d).isSome := by
  unfold DiskManager.write_page
  rw [if_neg (by omega)]
  rfl

/-- Claim C3: for every page id `p` and every 4096-byte buffer `d`, a
successful `write_page(p, d)` followed by `read_page(p)` with no
intervening write to `p` fills the read buffer with exactly the bytes
`d`. -/
theorem claim_C3 (dm : DiskManager) (p : PageId) (d buf : List Nat)
    (hd : d.length = GRIMOIRE_PAGE_SIZE) (hb : buf.length = GRIMOIRE_PAGE_SIZE) :
    ∃ dm', dm.write_page p d = some dm' ∧
      (dm'.read_page p buf).map (Except.map Prod.fst) = some (Except.ok d) := by
  obtain ⟨dm', hW⟩ := Option.isSome_iff_exists.mp (write_page_isSome dm p d hd)
  refine ⟨dm', hW, ?_⟩
  have h := read_after_write dm p d buf hd hb
  rwa [hW, Option.getD_some] at h

/-- Witness for claim C3: write 4096 bytes of value 7 to page 1 of a
fresh Disk Manager and read them back. -/
theorem claim_C3_witness :
    ∃ dm', DiskManager.init.write_page 1 (List.replicate 4096 7) = some dm' ∧
      (dm'.read_page 1 (List.replicate 4096 0)).map (Except.map Prod.fst)
        = some (Except.ok (List.replicate 4096 7)) :=
  claim_C3 DiskManager.init 1 (List.replicate 4096 7) (List.replicate 4096 0)
    (by rw [List.length_replicate]; rfl) (by rw [List.length_replicate]; rfl)

/-! ### Claim C4 -/

lemma page_size_pos : 0 < GRIMOIRE_PAGE_SIZE := by norm_num [GRIMOIRE_PAGE_SIZE]

/-- The Disk Manager allocation invariant: page-table keys are unique,
live offsets and free slots are pairwise distinct, and every recorded or
freed offset lies below the high-water mark. -/
structure DMInv (dm : DiskManager) : Prop where
  keys_nodup : (dm.pages.map Prod.fst).Nodup
  offs_nodup : (allOffsets dm).Nodup
  offs_bound : ∀ o ∈ allOffsets dm,
    o < (dm.pages.length + dm.free_slots.length) * GRIMOIRE_PAGE_SIZE

lemma DMInv_init : DMInv DiskManager.init := by
  constructor <;> simp [DiskManager.init, allOffsets, liveOffsets]

lemma allocate_page_free_some (dm : DiskManager) (p : PageId) (off : Nat)
    (h : dm.free_slots.getLast? = some off) :
    dm.allocate_page p =
      (off, { dm with free_slots := dm.free_slots.dropLast, pages := ainsert dm.pages p off }) := by
  unfold DiskManager.allocate_page
  rw [h]

lemma allocate_page_free_none (dm : DiskManager) (p : PageId)
    (h : dm.free_slots.getLast? = none) :
    dm.allocate_page p =
      (dm.pages.length * GRIMOIRE_PAGE_SIZE,
       { dm with
         page_capacity :=
           if dm.pages.length ≥ dm.page_capacity then dm.page_capacity * 2 else dm.page_capacity
         pages := ainsert dm.pages p (dm.pages.length * GRIMOIRE_PAGE_SIZE) }) := by
  unfold DiskManager.allocate_page
  rw [h]

/-- Transfer the invariant along a step that permutes the offsets and
preserves the combined table size. -/
lemma DMInv_transfer {dm dm' : DiskManager} (h : DMInv dm)
    (hkeys : (dm'.pages.map Prod.fst).Nodup)
    (hperm : List.Perm (allOffsets dm') (allOffsets dm))
    (hlen : dm'.pages.length + dm'.free_slots.length
      = dm.pages.length + dm.free_slots.length) :
    DMInv dm' := by
  refine ⟨hkeys, hperm.nodup_iff.mpr h.offs_nodup, ?_⟩
  intro o ho
  have hb := h.offs_bound o (hperm.mem_iff.mp ho)
  rw [hlen]
  exact hb

lemma DMInv_write (dm : DiskManager) (p : PageId) (d : List Nat) (h : DMInv dm) :
    DMInv ((dm.write_page p d).getD dm) := by
  by_cases hd : d.length = GRIMOIRE_PAGE_SIZE
  · unfold DiskManager.write_page
    rw [if_neg (by omega), Option.getD_some]
    rcases hlp : alookup dm.pages p with _ | o
    · rcases hfree : dm.free_slots.getLast? with _ | off
      · -- page unmapped, no free slot: fresh offset at the high-water mark
        have hfe : dm.free_slots = [] := List.getLast?_eq_none_iff.mp hfree
        rw [allocate_page_free_none dm p hfree]
        have hins := ainsert_of_none (dm.pages.length * GRIMOIRE_PAGE_SIZE) hlp
        have hp : p ∉ dm.pages.map Prod.fst := alookup_eq_none.mp hlp
        refine ⟨?_, ?_, ?_⟩
        · dsimp only
          rw [hins]
          simp only [List.map_append, List.map_cons, List.map_nil]
          exact (List.perm_append_singleton _ _).nodup_iff.mpr
            (List.nodup_cons.mpr ⟨hp, h.keys_nodup⟩)
        · dsimp only [allOffsets, liveOffsets]
          rw [hins, hfe]
          simp only [List.map_append, List.map_cons, List.map_nil, List.append_nil]
          refine (List.perm_append_singleton _ _).nodup_iff.mpr (List.nodup_cons.mpr ⟨?_, ?_⟩)
          · intro hmem
            have hb := h.offs_bound (dm.pages.length * GRIMOIRE_PAGE_SIZE)
              (by rw [allOffsets, hfe, List.append_nil]; exact hmem)
            rw [hfe] at hb
            simp only [List.length_nil, Nat.add_zero] at hb
            omega
          · have hn := h.offs_nodup
            rw [allOffsets, hfe, List.append_nil] at hn
            exact hn
        · intro o ho
          dsimp only [allOffsets, liveOffsets] at ho ⊢
          rw [hins, hfe] at ho ⊢
          simp only [List.map_append, List.map_cons, List.map_nil, List.append_nil,
            List.mem_append, List.mem_singleton, List.length_append, List.length_cons,
            List.length_nil] at ho ⊢
          have hps := page_size_pos
          rcases ho with ho | ho
          · have hb := h.offs_bound o (by rw [allOffsets, hfe, List.append_nil]; exact ho)
            rw [hfe] at hb
            simp only [List.length_nil, Nat.add_zero] at hb
            nlinarith
          · subst ho
            nlinarith
      · -- page unmapped, reuse a free slot from the back of the pool
        have hdecF : dm.free_slots = dm.free_slots.dropLast ++ [off] := by
          obtain ⟨l', hl'⟩ := List.getLast?_eq_some_iff.mp hfree
          rw [hl', List.dropLast_concat]
        rw [allocate_page_free_some dm p off hfree]
        have hins := ainsert_of_none off hlp
        have hp : p ∉ dm.pages.map Prod.fst := alookup_eq_none.mp hlp
        refine DMInv_transfer h ?_ ?_ ?_
        · dsimp only
          rw [hins]
          simp only [List.map_append, List.map_cons, List.map_nil]
          exact (List.perm_append_singleton _ _).nodup_iff.mpr
            (List.nodup_cons.mpr ⟨hp, h.keys_nodup⟩)
        · rw [List.perm_iff_count]
          intro a
          dsimp only [allOffsets, liveOffsets]
          rw [hins]
          conv_rhs => rw [hdecF]
          simp only [List.map_append, List.map_cons, List.map_nil, List.count_append,
            List.count_cons, List.count_nil]
          by_cases hao : a = off <;> simp [hao] <;> omega
        · dsimp only
          rw [hins]
          have hlF : dm.free_slots.length = dm.free_slots.dropLast.length + 1 := by
            conv_lhs => rw [hdecF]
            simp
          simp only [List.length_append, List.length_cons, List.length_nil]
          omega
    · -- page already mapped: only the file bytes and statistics change
      refine DMInv_transfer h ?_ ?_ ?_
      · exact h.keys_nodup
      · exact List.Perm.refl _
      · rfl
  · unfold DiskManager.write_page
    rw [if_pos (by omega)]
    exact h

lemma DMInv_delete (dm : DiskManager) (p : PageId) (h : DMInv dm) :
    DMInv ((dm.delete_page p).2) := by
  unfold DiskManager.delete_page
  rcases hlp : alookup dm.pages p with _ | off
  · exact h
  · obtain ⟨l₁, l₂, hdec, herase, hnot⟩ := alookup_decomp hlp
    dsimp only
    refine DMInv_transfer h ?_ ?_ ?_
    · dsimp only
      rw [herase]
      have hsub : List.Sublist (l₁ ++ l₂) dm.pages := by
        rw [hdec]
        exact (List.sublist_cons_self _ _).append_left l₁
      exact h.keys_nodup.sublist (hsub.map Prod.fst)
    · rw [List.perm_iff_count]
      intro a
      dsimp only [allOffsets, liveOffsets]
      rw [herase]
      conv_rhs => rw [hdec]
      simp only [List.map_append, List.map_cons, List.count_append, List.count_cons,
        List.count_nil]
      by_cases hao : a = off <;> simp [hao] <;> omega
    · dsimp only
      rw [herase]
      have : dm.pages.length = l₁.length + l₂.length + 1 := by
        rw [hdec]; simp; omega
      simp only [List.length_append, List.length_cons, List.length_nil]
      omega

lemma DMInv_applyOp (dm : DiskManager) (op : DMOp) (h : DMInv dm) :
    DMInv (applyOp dm op) := by
  cases op with
  | write p d => exact DMInv_write dm p d h
  | delete p => exact DMInv_delete dm p h

lemma DMInv_runOps (ops : List DMOp) :
    ∀ dm : DiskManager, DMInv dm → DMInv (runOps dm ops) := by
  induction ops with
  | nil => intro dm h; exact h
  | cons op rest ih =>
    intro dm h
    exact ih (applyOp dm op) (DMInv_applyOp dm op h)

/-- Claim C4: at every state reachable by any sequence of `write_page`
and `delete_page` calls from a fresh Disk Manager, the byte offsets
recorded for live (non-deleted) pages are pairwise distinct. -/
theorem claim_C4 (ops : List DMOp) : (liveOffsets (runOps DiskManager.init ops)).Nodup :=
  ((DMInv_runOps ops DiskManager.init DMInv_init).offs_nodup).of_append_left

/-! ### Claim C9 -/

/-- First request submitted: write 4096 bytes of value 1 to page 0. -/
def reqA : DiskRequest :=
  { is_write := true, data := List.replicate 4096 1, page_id := 0 }

/-- Second request submitted: write 4096 bytes of value 2 to page 0. -/
def reqB : DiskRequest :=
  { is_write := true, data := List.replicate 4096 2, page_id := 0 }

/-- A write request acts on the state through `write_page`. -/
lemma applyReq_write (dm : DiskManager) (r : DiskRequest) (h : r.is_write = true) :
    applyReq dm r = (dm.write_page r.page_id r.data).getD dm := by
  unfold applyReq
  rw [if_pos h]

/-- Claim C9 is contradicted by the code: `DiskScheduler::schedule` spawns
the drained requests as independent concurrent tasks constrained only by
a counting semaphore, with no per-page ordering; its own doc comment says
the queued requests are executed in order, and the spec mandates per-page
submission-order completion, but for the batch of two writes to page 0
submitted in the order `reqA` then `reqB` there is a possible execution
(running `reqB` first, then `reqA`) after which page 0 still holds
`reqA`'s bytes: the later write `reqB` has been visibly overtaken. -/
theorem claim_C9_bug :
    ∃ dmf, scheduleOutcome DiskManager.init [reqA, reqB] dmf ∧
      (dmf.read_page 0 (List.replicate 4096 0)).map (Except.map Prod.fst)
        = some (Except.ok reqA.data) ∧
      reqA.data ≠ reqB.data := by
  refine ⟨runBatch DiskManager.init [reqB, reqA],
    ⟨[reqB, reqA], List.Perm.swap reqA reqB [], rfl⟩, ?_, ?_⟩
  · simp only [runBatch, List.foldl_cons, List.foldl_nil]
    rw [applyReq_write _ reqA rfl]
    have h := read_after_write (applyReq DiskManager.init reqB) reqA.page_id reqA.data
      (List.replicate 4096 0)
      (by rw [show reqA.data = List.replicate 4096 1 from rfl, List.length_replicate]; rfl)
      (by rw [List.length_replicate]; rfl)
    rw [show reqA.page_id = (0 : PageId) from rfl] at h
    exact h
  · intro hab
    have h12 : (1 : Nat) = 2 := by
      have hh := congrArg (fun l => l.headD 0) hab
      exact hh
    exact absurd h12 (by decide)

end Grimoire
